import Mathlib

/-!
A shallow embedding of the LTC (linear timecode) audio decoder from
`src/decoder.c` (functions `parse_ltc`, `biphase_decode2`, `decode_ltc`,
`calc_volume_db`), together with theorems settling the specification
claims about it.

Modelling conventions:
* C `int` counters that are always non-negative in every execution
  (`snd_to_biphase_cnt`, `bit_cnt`, queue cursors, `biphase_tic`) are
  modelled as `Nat`; signed quantities (`snd_to_biphase_lmt`,
  `ltc_off_t` sample offsets) as `Int`.
* The C `double` field `snd_to_biphase_period` (and the `float` ring
  `biphase_tics`) are modelled as exact rationals `Rat`; every `double`
  operation the source performs on them (`(p*3+cnt)/4`, `p*3/4`, `p*4`,
  `16*p`, `80*p`, `ceil`, comparisons with integer counters) is mapped to
  the corresponding exact rational operation.  A C conversion from
  `double` to an integer type truncates toward zero; `ratTrunc` below is
  that conversion.
* The 10-byte `LTCFrame` bit register is a `List Nat` of its bytes in
  memory order; bit number `k` of the register is bit `k % 8` of byte
  `k / 8`, exactly as `parse_ltc` addresses it.
* `unsigned char` two-level state values that are only ever 0/1
  (`snd_to_biphase_state`, `biphase_prev`) are `Bool`; `biphase_state`,
  which the source updates arithmetically as `1 - biphase_state`, stays
  a `Nat`.
-/

/-- Number of bits in an LTC frame.  Modelled from the spec: the header
defining `LTC_FRAME_BIT_COUNT` is not part of the sources given, and the
spec fixes an 80-bit frame payload. -/
def LTC_FRAME_BIT_COUNT : Nat := 80

/-- Center value of the 8-bit unsigned sample scale.  Modelled from the
spec: the header defining `SAMPLE_CENTER` is not part of the sources
given; the spec fixes an unsigned 0..255 amplitude scale with a defined
center representing the zero crossing, whose midpoint is 128. -/
def SAMPLE_CENTER : Int := 128

/-- The forward LTC sync word `B16(00111111,11111101)` = 0x3ffd from
`parse_ltc`. -/
def LTC_SYNC_WORD_FWD : Nat := 16381

/-- The reverse LTC sync word `B16(10111111,11111100)` = 0xbffc from
`parse_ltc`. -/
def LTC_SYNC_WORD_REV : Nat := 49148

/-- C conversion of a `double` value (modelled as an exact rational) to a
signed integer type: truncation toward zero. -/
def ratTrunc (q : Rat) : Int := q.num.tdiv (q.den : Int)

/-- Result of `calc_volume_db`: `-INFINITY` when `max <= min`, otherwise
`20*log10((max-min)/255)` dB.  The logarithm is irrational, so the
finite case is represented by its argument `max - min` (the map
`r \mapsto 20*log10(r/255)` is strictly monotone, hence injective). -/
inductive VolumeDb where
  | negInf : VolumeDb
  | dbOfRange : Nat → VolumeDb
deriving DecidableEq

/-- `calc_volume_db` from `decoder.c`: reads the envelope extremes of the
decoder state. -/
def calc_volume_db (mn mx : Nat) : VolumeDb :=
  if mx ≤ mn then VolumeDb.negInf else VolumeDb.dbOfRange (mx - mn)

/-- A published frame record (`LTCFrameExt`): payload bytes, per-tic
period history, sample-offset span, reverse indicator, volume and
envelope extremes. -/
structure FrameExt where
  ltc : List Nat
  off_start : Int
  off_end : Int
  reverse : Int
  volume : VolumeDb
  sample_min : Nat
  sample_max : Nat
  biphase_tics : List Rat
deriving DecidableEq

/-- The decoder state (`LTCDecoder`), with the fields `decode_ltc`,
`biphase_decode2` and `parse_ltc` touch.  The consumer-side read cursor
is omitted: no source function given reads or writes it. -/
structure Decoder where
  queue : List FrameExt
  queue_len : Nat
  queue_write_off : Nat
  biphase_state : Nat
  biphase_prev : Bool
  snd_to_biphase_state : Bool
  snd_to_biphase_cnt : Nat
  snd_to_biphase_lmt : Int
  snd_to_biphase_period : Rat
  snd_to_biphase_min : Nat
  snd_to_biphase_max : Nat
  decoder_sync_word : Nat
  ltc_frame : List Nat
  bit_cnt : Nat
  frame_start_off : Int
  frame_start_prev : Int
  biphase_tics : List Rat
  biphase_tic : Nat
deriving DecidableEq

/-- One step of the "shift bits backwards" loop of `parse_ltc`: byte
`bi`'s bits 7..1 move to bits 6..0 (`(bi & 0x80) ? 0x40 : 0`, ...,
`(bi & 0x02) ? 0x01 : 0`), and the low bit of the following byte `c`
is carried into bit 7. -/
def shift_byte (bi c : Nat) : Nat :=
  (if bi.testBit 7 then 64 else 0) + (if bi.testBit 6 then 32 else 0) +
  (if bi.testBit 5 then 16 else 0) + (if bi.testBit 4 then 8 else 0) +
  (if bi.testBit 3 then 4 else 0) + (if bi.testBit 2 then 2 else 0) +
  (if bi.testBit 1 then 1 else 0) + (if c.testBit 0 then 128 else 0)

/-- The "shift bits backwards" loop of `parse_ltc` over the whole byte
register: each byte is rewritten from itself and the (original) next
byte; the last byte gets no carry (`k+1 < byte_num_max` guard). -/
def shift_bytes : List Nat → List Nat
  | [] => []
  | b :: r => shift_byte b (r.headD 0) :: shift_bytes r

/-- The "swap bits" loop of the reverse-sync branch of `parse_ltc`:
reverse the bit order inside one byte (`(bi & 0x80) ? 0x01 : 0`, ...,
`(bi & 0x01) ? 0x80 : 0`). -/
def bitrev8 (bi : Nat) : Nat :=
  (if bi.testBit 7 then 1 else 0) + (if bi.testBit 6 then 2 else 0) +
  (if bi.testBit 5 then 4 else 0) + (if bi.testBit 4 then 8 else 0) +
  (if bi.testBit 3 then 16 else 0) + (if bi.testBit 2 then 32 else 0) +
  (if bi.testBit 1 then 64 else 0) + (if bi.testBit 0 then 128 else 0)

/-- The "swap bytes" loop of the reverse-sync branch of `parse_ltc`:
with `byte_num_max` reduced by 2 to skip the sync word, the pairwise
swaps `k <-> byte_num_max-1-k` for `k < byte_num_max/2` reverse the
order of the first 8 bytes and leave the last two in place. -/
def swap_bytes (f : List Nat) : List Nat :=
  (f.take 8).reverse ++ f.drop 8

/-- Bit number `j` of the frame bit register, as `parse_ltc` addresses
it: bit `j % 8` (mask `1 << (j & 7)`) of byte `j / 8` (`j >> 3`). -/
def frameBit (f : List Nat) (j : Nat) : Bool :=
  (f.getD (j / 8) 0).testBit (j % 8)

/-- The value of the byte register read as one little-endian natural
number, so that `frameBit f j` is bit `j` of `regVal f`. -/
def regVal : List Nat → Nat
  | [] => 0
  | b :: r => b + 256 * regVal r

/-- Lines 124-133 of `parse_ltc`: when a frame starts (`bit_cnt == 0`)
clear the register and seed `frame_start_off` (from the previous frame's
end when known, else `posinfo - period` truncated into `ltc_off_t`);
always record `offset + posinfo` as the prospective next frame start. -/
def parse_init (d : Decoder) (offset posinfo : Int) : Decoder :=
  let d1 :=
    if d.bit_cnt = 0 then
      { d with
        ltc_frame := List.replicate 10 0,
        frame_start_off :=
          if d.frame_start_prev < 0 then
            ratTrunc ((posinfo : Rat) - d.snd_to_biphase_period)
          else d.frame_start_prev }
    else d
  { d1 with frame_start_prev := offset + posinfo }

/-- Lines 135-158 of `parse_ltc`: on register overflow
(`bit_cnt >= LTC_FRAME_BIT_COUNT`) shift the register down one bit,
advance `frame_start_off` by `ceil(period)` and decrement `bit_cnt`. -/
def parse_shift (d : Decoder) : Decoder :=
  if LTC_FRAME_BIT_COUNT ≤ d.bit_cnt then
    { d with
      ltc_frame := shift_bytes d.ltc_frame,
      frame_start_off := d.frame_start_off + ⌈d.snd_to_biphase_period⌉,
      bit_cnt := d.bit_cnt - 1 }
  else d

/-- Lines 160-177 of `parse_ltc`: shift the 16-bit `decoder_sync_word`
left (dropping into its unsigned short range), OR in the new bit, set
payload bit `bit_cnt` when in range, and increment `bit_cnt`. -/
def parse_absorb (d : Decoder) (bit : Bool) : Decoder :=
  let sw := d.decoder_sync_word * 2 % 65536
  let d1 :=
    if bit then
      let d2 := { d with decoder_sync_word := sw ||| 1 }
      if d.bit_cnt < LTC_FRAME_BIT_COUNT then
        { d2 with
          ltc_frame := d.ltc_frame.set (d.bit_cnt / 8)
            (d.ltc_frame.getD (d.bit_cnt / 8) 0 ||| (1 <<< (d.bit_cnt % 8))) }
      else d2
    else { d with decoder_sync_word := sw }
  { d1 with bit_cnt := d1.bit_cnt + 1 }

/-- The queue-write code shared by both sync branches of `parse_ltc`
(lines 183-203 and 239-259): wrap the write cursor to 0 when it has
reached `queue_len`, store the record there, advance the cursor. -/
def pushQueue (d : Decoder) (rec : FrameExt) : Decoder :=
  let w := if d.queue_write_off = d.queue_len then 0 else d.queue_write_off
  { d with queue := d.queue.set w rec, queue_write_off := w + 1 }

/-- The frame record built by the forward-sync branch of `parse_ltc`:
payload from the register, per-tic ring copied starting at the current
ring cursor (`biphase_tics[(biphase_tic + bc) % LTC_FRAME_BIT_COUNT]`),
offsets, `reverse = 0`, volume and envelope extremes. -/
def fwdFrameRec (d : Decoder) (offset posinfo : Int) : FrameExt :=
  { ltc := d.ltc_frame,
    off_start := d.frame_start_off,
    off_end := posinfo + offset - 1,
    reverse := 0,
    volume := calc_volume_db d.snd_to_biphase_min d.snd_to_biphase_max,
    sample_min := d.snd_to_biphase_min,
    sample_max := d.snd_to_biphase_max,
    biphase_tics := List.ofFn (fun bc : Fin LTC_FRAME_BIT_COUNT =>
      d.biphase_tics.getD ((d.biphase_tic + (bc : Nat)) % LTC_FRAME_BIT_COUNT) 0) }

/-- Lines 179-207 of `parse_ltc`: on the forward sync word, publish a
forward frame when `bit_cnt == LTC_FRAME_BIT_COUNT`, and reset `bit_cnt`
to 0 on any match. -/
def parse_sync_fwd (d : Decoder) (offset posinfo : Int) : Decoder :=
  if d.decoder_sync_word = LTC_SYNC_WORD_FWD then
    let d1 :=
      if d.bit_cnt = LTC_FRAME_BIT_COUNT then
        pushQueue d (fwdFrameRec d offset posinfo)
      else d
    { d1 with bit_cnt := 0 }
  else d

/-- The frame record built by the reverse-sync branch of `parse_ltc`
for the transformed register `f2`: offsets pulled back by 16 bit
periods (`double` arithmetic truncated into `ltc_off_t`), and `reverse`
set to `(LTC_FRAME_BIT_COUNT >> 3) * 8 * period` truncated to `int`. -/
def revFrameRec (d : Decoder) (offset posinfo : Int) (f2 : List Nat) : FrameExt :=
  { ltc := f2,
    off_start := ratTrunc ((d.frame_start_off : Rat) - 16 * d.snd_to_biphase_period),
    off_end := ratTrunc (((posinfo + offset - 1 : Int) : Rat) - 16 * d.snd_to_biphase_period),
    reverse := ratTrunc (((LTC_FRAME_BIT_COUNT / 8 * 8 : Nat) : Rat) * d.snd_to_biphase_period),
    volume := calc_volume_db d.snd_to_biphase_min d.snd_to_biphase_max,
    sample_min := d.snd_to_biphase_min,
    sample_max := d.snd_to_biphase_max,
    biphase_tics := List.ofFn (fun bc : Fin LTC_FRAME_BIT_COUNT =>
      d.biphase_tics.getD ((d.biphase_tic + (bc : Nat)) % LTC_FRAME_BIT_COUNT) 0) }

/-- Lines 209-262 of `parse_ltc`: on the reverse sync word, when
`bit_cnt == LTC_FRAME_BIT_COUNT`, reverse the bit order inside every
register byte, reverse the byte order of the 8 non-sync bytes (both in
place), publish the reverse frame, and reset `bit_cnt` to 0 on any
match. -/
def parse_sync_rev (d : Decoder) (offset posinfo : Int) : Decoder :=
  if d.decoder_sync_word = LTC_SYNC_WORD_REV then
    let d1 :=
      if d.bit_cnt = LTC_FRAME_BIT_COUNT then
        let f2 := swap_bytes (d.ltc_frame.map bitrev8)
        pushQueue { d with ltc_frame := f2 } (revFrameRec d offset posinfo f2)
      else d
    { d1 with bit_cnt := 0 }
  else d

/-- The state of `parse_ltc` after the init, overflow-shift and
bit-absorption stages, just before the two sync-word checks. -/
def parse_mid (d : Decoder) (bit : Bool) (offset posinfo : Int) : Decoder :=
  parse_absorb (parse_shift (parse_init d offset posinfo)) bit

/-- `parse_ltc` from `decoder.c`, as the composition of its stages. -/
def parse_ltc (d : Decoder) (bit : Bool) (offset posinfo : Int) : Decoder :=
  parse_sync_rev (parse_sync_fwd (parse_mid d bit offset posinfo) offset posinfo)
    offset posinfo

/-- Lines 269-271 of `biphase_decode2`: the tick's sample-position
estimate, moved back by `period - cnt` (in `double`, then truncated back
into the `ltc_off_t` local) whenever `cnt <= 2 * period`. -/
def biphase_pos (d : Decoder) (pos : Int) : Int :=
  if (d.snd_to_biphase_cnt : Rat) ≤ 2 * d.snd_to_biphase_period then
    ratTrunc ((pos : Rat) - (d.snd_to_biphase_period - (d.snd_to_biphase_cnt : Rat)))
  else pos

/-- `biphase_decode2` from `decoder.c`: record the current period in the
per-tic ring, advance the ring cursor, adjust the position estimate,
run the tick-pair parity machine, feeding a decoded bit to `parse_ltc`
on bit boundaries, and remember the two-level state for the next tick. -/
def biphase_decode2 (d : Decoder) (offset pos : Int) : Decoder :=
  let d1 := { d with
    biphase_tics := d.biphase_tics.set d.biphase_tic d.snd_to_biphase_period,
    biphase_tic := (d.biphase_tic + 1) % LTC_FRAME_BIT_COUNT }
  let pos1 := biphase_pos d pos
  let d2 :=
    if d.snd_to_biphase_state = d.biphase_prev then
      parse_ltc { d1 with biphase_state := 1 } false offset pos1
    else
      if 1 - d.biphase_state = 1 then
        parse_ltc { d1 with biphase_state := 1 - d.biphase_state } true offset pos1
      else { d1 with biphase_state := 1 - d.biphase_state }
  { d2 with biphase_prev := d.snd_to_biphase_state }

/-- Lines 309-322 of `decode_ltc`: classify the interval since the last
two-level transition.  `cnt > lmt` is a long interval: two half-bit
ticks (two `biphase_decode2` calls) with `cnt` untouched; otherwise a
short interval: `cnt` is doubled and one tick is produced. -/
def decode_classify (d : Decoder) (i posinfo : Int) : Decoder :=
  if d.snd_to_biphase_lmt < (d.snd_to_biphase_cnt : Int) then
    biphase_decode2 (biphase_decode2 d i posinfo) i posinfo
  else
    biphase_decode2 { d with snd_to_biphase_cnt := d.snd_to_biphase_cnt * 2 } i posinfo

/-- Lines 324-355 of `decode_ltc` (with `SWITCH_FIX_SILENCE_LOGIC_BUG`
active): when `cnt > period * 4` and `cnt` exceeds the fixed
`min_silence_num_samples_threshold` of 16 samples, abandon the frame in
progress (`bit_cnt = 0`) and keep `period`/`lmt`; otherwise update the
period estimate to `(period*3 + cnt)/4` and recompute
`lmt = period*3/4` (truncated into its `int` field). -/
def decode_silence (d : Decoder) : Decoder :=
  if d.snd_to_biphase_period * 4 < (d.snd_to_biphase_cnt : Rat) ∧ 16 < d.snd_to_biphase_cnt then
    { d with bit_cnt := 0 }
  else
    let p := (d.snd_to_biphase_period * 3 + (d.snd_to_biphase_cnt : Rat)) / 4
    { d with snd_to_biphase_period := p, snd_to_biphase_lmt := ratTrunc (p * 3 / 4) }

/-- Lines 292-293 of `decode_ltc`: decay the envelope minimum toward the
center by 15/16 (C `int` arithmetic, division truncating toward zero,
result stored back into the `unsigned char` field). -/
def decayMin (m : Nat) : Nat :=
  (SAMPLE_CENTER - ((SAMPLE_CENTER - (m : Int)) * 15).tdiv 16).toNat

/-- Lines 292-293 of `decode_ltc`: decay the envelope maximum toward the
center by 15/16. -/
def decayMax (m : Nat) : Nat :=
  (SAMPLE_CENTER + (((m : Int) - SAMPLE_CENTER) * 15).tdiv 16).toNat

/-- Lines 292-298 of `decode_ltc`: one envelope step — decay both
extremes toward the center, then clamp them to the current sample when
it is more extreme. -/
def env_update (mn mx s : Nat) : Nat × Nat :=
  (if s < decayMin mn then s else decayMin mn,
   if decayMax mx < s then s else decayMax mx)

/-- The envelope state after a whole sample sequence. -/
def env_run (p : Nat × Nat) (l : List Nat) : Nat × Nat :=
  l.foldl (fun p s => env_update p.1 p.2 s) p

/-- Initial envelope state.  Modelled from the spec: the decoder
constructor is not part of the sources given; the spec's envelope
decays toward the center and satisfies `min ≤ center ≤ max` as soon as
one sample was processed, so both extremes start at the center. -/
def initEnv : Nat × Nat := (128, 128)

/-- The per-sample body of the loop of `decode_ltc` (lines 289-360):
envelope tracking, hysteresis thresholds at the 8/16 point, two-level
state-change detection, interval classification, silence rejection,
and the unconditional `cnt` increment. -/
def decode_sample (d : Decoder) (s : Nat) (i posinfo : Int) : Decoder :=
  let mn := (env_update d.snd_to_biphase_min d.snd_to_biphase_max s).1
  let mx := (env_update d.snd_to_biphase_min d.snd_to_biphase_max s).2
  let min_threshold : Int := SAMPLE_CENTER - ((SAMPLE_CENTER - (mn : Int)) * 8).tdiv 16
  let max_threshold : Int := SAMPLE_CENTER + (((mx : Int) - SAMPLE_CENTER) * 8).tdiv 16
  let d0 := { d with snd_to_biphase_min := mn, snd_to_biphase_max := mx }
  let d3 :=
    if (d.snd_to_biphase_state = true ∧ max_threshold < (s : Int))
        ∨ (d.snd_to_biphase_state = false ∧ (s : Int) < min_threshold) then
      { decode_silence (decode_classify d0 i posinfo) with
        snd_to_biphase_cnt := 0,
        snd_to_biphase_state := !d.snd_to_biphase_state }
    else d0
  { d3 with snd_to_biphase_cnt := d3.snd_to_biphase_cnt + 1 }

/-- One loop iteration of `decode_ltc` with the sample memory threaded
through explicitly: the sample at index `i` is read from the array, and
the array component is whatever the body leaves in it — the source body
performs no store into `sound`, so it is returned as it came. -/
def decode_sample_mem (dm : Decoder × List Nat) (i : Nat) (posinfo : Int) :
    Decoder × List Nat :=
  (decode_sample dm.1 (dm.2.getD i 0) (i : Int) posinfo, dm.2)

/-- The loop of `decode_ltc`: `size` iterations starting at index `i`. -/
def decode_loop (posinfo : Int) : Nat → Nat → Decoder × List Nat → Decoder × List Nat
  | _, 0, dm => dm
  | i, n + 1, dm => decode_loop posinfo (i + 1) n (decode_sample_mem dm i posinfo)

/-- `decode_ltc` from `decoder.c`: process every sample of the array,
returning the final decoder state together with the sample memory. -/
def decode_ltc (d : Decoder) (sound : List Nat) (posinfo : Int) : Decoder × List Nat :=
  decode_loop posinfo 0 sound.length (d, sound)

/-- Helper: every byte read out of a byte list is below 256 (the default
0 included). -/
theorem getD_lt_256 (f : List Nat) (h : ∀ b ∈ f, b < 256) (k : Nat) :
    f.getD k 0 < 256 := by
  induction f generalizing k with
  | nil => simp
  | cons b t ih =>
    cases k with
    | zero => exact h b (List.mem_cons_self b t)
    | succ n =>
      rw [List.getD_cons_succ]
      exact ih (fun x hx => h x (List.mem_cons_of_mem _ hx)) n

/-- Helper: a rational at least 1 truncates (toward zero) to an integer
at least 1. -/
theorem one_le_ratTrunc {q : Rat} (h : 1 ≤ q) : 1 ≤ ratTrunc q := by
  have hd : (0 : Int) < (q.den : Int) := Int.ofNat_pos.mpr q.den_pos
  have hnum : (q.den : Int) ≤ q.num := by
    have h2 := Rat.le_def.mp h
    simpa using h2
  have h0 : 0 ≤ q.num := le_trans (le_of_lt hd) hnum
  rw [ratTrunc, Int.tdiv_eq_ediv h0 (le_of_lt hd)]
  exact (Int.le_ediv_iff_mul_le hd).mpr (by simpa using hnum)

theorem pushQueue_cnt (d : Decoder) (r : FrameExt) :
    (pushQueue d r).snd_to_biphase_cnt = d.snd_to_biphase_cnt := rfl

theorem pushQueue_tic (d : Decoder) (r : FrameExt) :
    (pushQueue d r).biphase_tic = d.biphase_tic := rfl

theorem pushQueue_min (d : Decoder) (r : FrameExt) :
    (pushQueue d r).snd_to_biphase_min = d.snd_to_biphase_min := rfl

theorem pushQueue_max (d : Decoder) (r : FrameExt) :
    (pushQueue d r).snd_to_biphase_max = d.snd_to_biphase_max := rfl

theorem pushQueue_sync (d : Decoder) (r : FrameExt) :
    (pushQueue d r).decoder_sync_word = d.decoder_sync_word := rfl

theorem parse_init_cnt (d : Decoder) (offset posinfo : Int) :
    (parse_init d offset posinfo).snd_to_biphase_cnt = d.snd_to_biphase_cnt := by
  unfold parse_init; split <;> rfl

theorem parse_init_tic (d : Decoder) (offset posinfo : Int) :
    (parse_init d offset posinfo).biphase_tic = d.biphase_tic := by
  unfold parse_init; split <;> rfl

theorem parse_init_min (d : Decoder) (offset posinfo : Int) :
    (parse_init d offset posinfo).snd_to_biphase_min = d.snd_to_biphase_min := by
  unfold parse_init; split <;> rfl

theorem parse_init_max (d : Decoder) (offset posinfo : Int) :
    (parse_init d offset posinfo).snd_to_biphase_max = d.snd_to_biphase_max := by
  unfold parse_init; split <;> rfl

theorem parse_shift_cnt (d : Decoder) :
    (parse_shift d).snd_to_biphase_cnt = d.snd_to_biphase_cnt := by
  unfold parse_shift; split <;> rfl

theorem parse_shift_tic (d : Decoder) :
    (parse_shift d).biphase_tic = d.biphase_tic := by
  unfold parse_shift; split <;> rfl

theorem parse_shift_min (d : Decoder) :
    (parse_shift d).snd_to_biphase_min = d.snd_to_biphase_min := by
  unfold parse_shift; split <;> rfl

theorem parse_shift_max (d : Decoder) :
    (parse_shift d).snd_to_biphase_max = d.snd_to_biphase_max := by
  unfold parse_shift; split <;> rfl

theorem parse_absorb_cnt (d : Decoder) (bit : Bool) :
    (parse_absorb d bit).snd_to_biphase_cnt = d.snd_to_biphase_cnt := by
  unfold parse_absorb
  split
  · split <;> rfl
  · rfl

theorem parse_absorb_tic (d : Decoder) (bit : Bool) :
    (parse_absorb d bit).biphase_tic = d.biphase_tic := by
  unfold parse_absorb
  split
  · split <;> rfl
  · rfl

theorem parse_absorb_min (d : Decoder) (bit : Bool) :
    (parse_absorb d bit).snd_to_biphase_min = d.snd_to_biphase_min := by
  unfold parse_absorb
  split
  · split <;> rfl
  · rfl

theorem parse_absorb_max (d : Decoder) (bit : Bool) :
    (parse_absorb d bit).snd_to_biphase_max = d.snd_to_biphase_max := by
  unfold parse_absorb
  split
  · split <;> rfl
  · rfl

theorem parse_sync_fwd_cnt (d : Decoder) (offset posinfo : Int) :
    (parse_sync_fwd d offset posinfo).snd_to_biphase_cnt = d.snd_to_biphase_cnt := by
  unfold parse_sync_fwd
  split
  · split <;> rfl
  · rfl

theorem parse_sync_fwd_tic (d : Decoder) (offset posinfo : Int) :
    (parse_sync_fwd d offset posinfo).biphase_tic = d.biphase_tic := by
  unfold parse_sync_fwd
  split
  · split <;> rfl
  · rfl

theorem parse_sync_fwd_min (d : Decoder) (offset posinfo : Int) :
    (parse_sync_fwd d offset posinfo).snd_to_biphase_min = d.snd_to_biphase_min := by
  unfold parse_sync_fwd
  split
  · split <;> rfl
  · rfl

theorem parse_sync_fwd_max (d : Decoder) (offset posinfo : Int) :
    (parse_sync_fwd d offset posinfo).snd_to_biphase_max = d.snd_to_biphase_max := by
  unfold parse_sync_fwd
  split
  · split <;> rfl
  · rfl

theorem parse_sync_rev_cnt (d : Decoder) (offset posinfo : Int) :
    (parse_sync_rev d offset posinfo).snd_to_biphase_cnt = d.snd_to_biphase_cnt := by
  unfold parse_sync_rev
  split
  · split <;> rfl
  · rfl

theorem parse_sync_rev_tic (d : Decoder) (offset posinfo : Int) :
    (parse_sync_rev d offset posinfo).biphase_tic = d.biphase_tic := by
  unfold parse_sync_rev
  split
  · split <;> rfl
  · rfl

theorem parse_sync_rev_min (d : Decoder) (offset posinfo : Int) :
    (parse_sync_rev d offset posinfo).snd_to_biphase_min = d.snd_to_biphase_min := by
  unfold parse_sync_rev
  split
  · split <;> rfl
  · rfl

theorem parse_sync_rev_max (d : Decoder) (offset posinfo : Int) :
    (parse_sync_rev d offset posinfo).snd_to_biphase_max = d.snd_to_biphase_max := by
  unfold parse_sync_rev
  split
  · split <;> rfl
  · rfl

theorem parse_ltc_cnt (d : Decoder) (bit : Bool) (offset posinfo : Int) :
    (parse_ltc d bit offset posinfo).snd_to_biphase_cnt = d.snd_to_biphase_cnt := by
  unfold parse_ltc parse_mid
  rw [parse_sync_rev_cnt, parse_sync_fwd_cnt, parse_absorb_cnt, parse_shift_cnt,
    parse_init_cnt]

theorem parse_ltc_tic (d : Decoder) (bit : Bool) (offset posinfo : Int) :
    (parse_ltc d bit offset posinfo).biphase_tic = d.biphase_tic := by
  unfold parse_ltc parse_mid
  rw [parse_sync_rev_tic, parse_sync_fwd_tic, parse_absorb_tic, parse_shift_tic,
    parse_init_tic]

theorem parse_ltc_min (d : Decoder) (bit : Bool) (offset posinfo : Int) :
    (parse_ltc d bit offset posinfo).snd_to_biphase_min = d.snd_to_biphase_min := by
  unfold parse_ltc parse_mid
  rw [parse_sync_rev_min, parse_sync_fwd_min, parse_absorb_min, parse_shift_min,
    parse_init_min]

theorem parse_ltc_max (d : Decoder) (bit : Bool) (offset posinfo : Int) :
    (parse_ltc d bit offset posinfo).snd_to_biphase_max = d.snd_to_biphase_max := by
  unfold parse_ltc parse_mid
  rw [parse_sync_rev_max, parse_sync_fwd_max, parse_absorb_max, parse_shift_max,
    parse_init_max]

theorem biphase_decode2_cnt (d : Decoder) (offset pos : Int) :
    (biphase_decode2 d offset pos).snd_to_biphase_cnt = d.snd_to_biphase_cnt := by
  unfold biphase_decode2
  split
  · rw [parse_ltc_cnt]
  · split
    · rw [parse_ltc_cnt]
    · rfl

theorem biphase_decode2_tic (d : Decoder) (offset pos : Int) :
    (biphase_decode2 d offset pos).biphase_tic
      = (d.biphase_tic + 1) % LTC_FRAME_BIT_COUNT := by
  unfold biphase_decode2
  split
  · rw [parse_ltc_tic]
  · split
    · rw [parse_ltc_tic]
    · rfl

theorem biphase_decode2_min (d : Decoder) (offset pos : Int) :
    (biphase_decode2 d offset pos).snd_to_biphase_min = d.snd_to_biphase_min := by
  unfold biphase_decode2
  split
  · rw [parse_ltc_min]
  · split
    · rw [parse_ltc_min]
    · rfl

theorem biphase_decode2_max (d : Decoder) (offset pos : Int) :
    (biphase_decode2 d offset pos).snd_to_biphase_max = d.snd_to_biphase_max := by
  unfold biphase_decode2
  split
  · rw [parse_ltc_max]
  · split
    · rw [parse_ltc_max]
    · rfl

theorem decode_silence_min (d : Decoder) :
    (decode_silence d).snd_to_biphase_min = d.snd_to_biphase_min := by
  unfold decode_silence; split <;> rfl

theorem decode_silence_max (d : Decoder) :
    (decode_silence d).snd_to_biphase_max = d.snd_to_biphase_max := by
  unfold decode_silence; split <;> rfl

theorem decode_classify_min (d : Decoder) (i posinfo : Int) :
    (decode_classify d i posinfo).snd_to_biphase_min = d.snd_to_biphase_min := by
  unfold decode_classify
  split
  · rw [biphase_decode2_min, biphase_decode2_min]
  · rw [biphase_decode2_min]

theorem decode_classify_max (d : Decoder) (i posinfo : Int) :
    (decode_classify d i posinfo).snd_to_biphase_max = d.snd_to_biphase_max := by
  unfold decode_classify
  split
  · rw [biphase_decode2_max, biphase_decode2_max]
  · rw [biphase_decode2_max]

/-- `shift_byte` only reads the parity of the carry byte. -/
theorem shift_byte_mod_two (b c : Nat) : shift_byte b c = shift_byte b (c % 2) := by
  unfold shift_byte
  have h : (c % 2).testBit 0 = c.testBit 0 := by
    rw [Nat.testBit_zero, Nat.testBit_zero, Nat.mod_mod_of_dvd c (dvd_refl 2)]
  rw [h]

set_option maxRecDepth 8000 in
/-- `shift_byte` with an even carry byte is division by two. -/
theorem shift_byte_even : ∀ b < 256, shift_byte b 0 = b / 2 := by decide

set_option maxRecDepth 8000 in
/-- `shift_byte` with an odd carry byte adds the carried high bit. -/
theorem shift_byte_odd : ∀ b < 256, shift_byte b 1 = b / 2 + 128 := by decide

/-- Arithmetic characterisation of one step of the register shift. -/
theorem shift_byte_arith (b c : Nat) (hb : b < 256) :
    shift_byte b c = b / 2 + 128 * (c % 2) := by
  rw [shift_byte_mod_two]
  rcases Nat.mod_two_eq_zero_or_one c with h | h
  · rw [h, shift_byte_even b hb, Nat.mul_zero, Nat.add_zero]
  · rw [h, shift_byte_odd b hb, Nat.mul_one]

/-- Adding a byte below a multiple of 256 concatenates the bit ranges. -/
theorem testBit_byte_add (b R j : Nat) (hb : b < 256) :
    (b + 256 * R).testBit j = if j < 8 then b.testBit j else R.testBit (j - 8) := by
  have h : b + 256 * R = 2 ^ 8 * R + b := by ring
  rw [h, Nat.testBit_mul_pow_two_add R (show b < 2 ^ 8 from hb) j]

/-- `frameBit` is the bit of the little-endian register value. -/
theorem regVal_testBit (f : List Nat) :
    ∀ j, (∀ b ∈ f, b < 256) → (regVal f).testBit j = frameBit f j := by
  induction f with
  | nil =>
    intro j _
    simp [regVal, frameBit, Nat.zero_testBit]
  | cons b t ih =>
    intro j h
    have hb : b < 256 := h b (List.mem_cons_self b t)
    have ht : ∀ x ∈ t, x < 256 := fun x hx => h x (List.mem_cons_of_mem _ hx)
    rw [regVal, testBit_byte_add _ _ _ hb]
    by_cases hj : j < 8
    · rw [if_pos hj]
      unfold frameBit
      rw [Nat.div_eq_of_lt hj, Nat.mod_eq_of_lt hj]
      rfl
    · rw [if_neg hj, ih (j - 8) ht]
      unfold frameBit
      have h1 : j / 8 = (j - 8) / 8 + 1 := by omega
      have h2 : j % 8 = (j - 8) % 8 := by omega
      rw [h1, h2, List.getD_cons_succ]

/-- The register value of a list of bytes is below `256 ^ length`. -/
theorem regVal_lt (f : List Nat) :
    (∀ b ∈ f, b < 256) → regVal f < 256 ^ f.length := by
  induction f with
  | nil => intro _; simp [regVal]
  | cons b t ih =>
    intro h
    have hb : b < 256 := h b (List.mem_cons_self b t)
    have ht := ih (fun x hx => h x (List.mem_cons_of_mem _ hx))
    have h2 : 256 * (regVal t + 1) ≤ 256 * 256 ^ t.length :=
      Nat.mul_le_mul_left _ ht
    rw [regVal, List.length_cons, pow_succ]
    omega

/-- The bytes produced by the register shift are again bytes. -/
theorem shift_bytes_lt (f : List Nat) :
    (∀ b ∈ f, b < 256) → ∀ b ∈ shift_bytes f, b < 256 := by
  induction f with
  | nil => intro _ b hb; simp [shift_bytes] at hb
  | cons b t ih =>
    intro h x hx
    have hb : b < 256 := h b (List.mem_cons_self b t)
    have ht := fun y hy => h y (List.mem_cons_of_mem _ hy)
    rw [shift_bytes, List.mem_cons] at hx
    rcases hx with rfl | hx
    · rw [shift_byte_arith _ _ hb]
      have : t.headD 0 % 2 ≤ 1 := by omega
      omega
    · exact ih ht x hx

/-- Index form of the register shift: each byte is its own upper bits
plus the carried parity of the next byte. -/
theorem shift_bytes_getD (f : List Nat) :
    ∀ k, (shift_bytes f).getD k 0 = shift_byte (f.getD k 0) (f.getD (k + 1) 0) := by
  induction f with
  | nil =>
    intro k
    simp [shift_bytes, shift_byte, Nat.zero_testBit]
  | cons b t ih =>
    intro k
    cases k with
    | zero =>
      show shift_byte b (t.headD 0) = shift_byte b (t.getD 0 0)
      cases t <;> rfl
    | succ n =>
      rw [shift_bytes]
      show (shift_bytes t).getD n 0 = shift_byte (t.getD n 0) (t.getD (n + 1) 0)
      exact ih n

/-- The register shift divides the register value by two. -/
theorem regVal_shift (f : List Nat) :
    (∀ b ∈ f, b < 256) → regVal (shift_bytes f) = regVal f / 2 := by
  induction f with
  | nil => intro _; rfl
  | cons b t ih =>
    intro h
    have hb : b < 256 := h b (List.mem_cons_self b t)
    have ht := fun y hy => h y (List.mem_cons_of_mem _ hy)
    rw [shift_bytes, regVal, regVal, ih ht, shift_byte_arith _ _ hb]
    have hpar : regVal t % 2 = t.headD 0 % 2 := by
      cases t with
      | nil => rfl
      | cons c s =>
        show (c + 256 * regVal s) % 2 = c % 2
        omega
    omega

/-- The decayed minimum stays at or below the sample center. -/
theorem decayMin_le (m : Nat) (h : m ≤ 128) : decayMin m ≤ 128 := by
  unfold decayMin SAMPLE_CENTER
  have ht : 0 ≤ ((128 - (m : Int)) * 15).tdiv 16 :=
    Int.tdiv_nonneg (by omega) (by omega)
  omega

/-- The decayed maximum stays at or above the sample center. -/
theorem decayMax_ge (m : Nat) (h : 128 ≤ m) : 128 ≤ decayMax m := by
  unfold decayMax SAMPLE_CENTER
  have ht : 0 ≤ (((m : Int)) - 128) * 15 := by
    have : (128 : Int) ≤ (m : Int) := by exact_mod_cast h
    omega
  have ht2 : 0 ≤ (((m : Int) - 128) * 15).tdiv 16 := Int.tdiv_nonneg ht (by omega)
  omega

/-- One envelope step keeps the minimum at or below the center and the
maximum at or above it. -/
theorem env_update_inv (mn mx s : Nat) (h1 : mn ≤ 128) (h2 : 128 ≤ mx) :
    (env_update mn mx s).1 ≤ 128 ∧ 128 ≤ (env_update mn mx s).2 := by
  unfold env_update
  constructor
  · have := decayMin_le mn h1
    dsimp only
    split <;> omega
  · have := decayMax_ge mx h2
    dsimp only
    split <;> omega

/-- Running the envelope preserves the center ordering. -/
theorem env_run_inv (l : List Nat) :
    ∀ p : Nat × Nat, p.1 ≤ 128 → 128 ≤ p.2 →
      (env_run p l).1 ≤ 128 ∧ 128 ≤ (env_run p l).2 := by
  induction l with
  | nil => intro p h1 h2; exact ⟨h1, h2⟩
  | cons s t ih =>
    intro p h1 h2
    have hstep := env_update_inv p.1 p.2 s h1 h2
    exact ih (env_update p.1 p.2 s) hstep.1 hstep.2

/-- The envelope fields of one `decode_ltc` loop iteration are exactly
one `env_update` step: no later stage of the iteration writes them. -/
theorem decode_sample_env (d : Decoder) (s : Nat) (i posinfo : Int) :
    (decode_sample d s i posinfo).snd_to_biphase_min
        = (env_update d.snd_to_biphase_min d.snd_to_biphase_max s).1
      ∧ (decode_sample d s i posinfo).snd_to_biphase_max
        = (env_update d.snd_to_biphase_min d.snd_to_biphase_max s).2 := by
  unfold decode_sample
  constructor
  · dsimp only
    split
    · rw [decode_silence_min, decode_classify_min]
    · rfl
  · dsimp only
    split
    · rw [decode_silence_max, decode_classify_max]
    · rfl

/-- Claim C1.  On a detected two-level state change, `decode_ltc`
classifies the elapsed interval `cnt` against `lmt`: for a long interval
(`cnt > lmt`) it produces exactly two half-bit ticks — two
`biphase_decode2` calls, the per-tic ring cursor advancing twice — with
`snd_to_biphase_cnt` left unmodified throughout; for a short interval it
first doubles `snd_to_biphase_cnt` and produces exactly one half-bit
tick (the ring cursor advances once). -/
theorem claim1_tick_production (d : Decoder) (i posinfo : Int) :
    (d.snd_to_biphase_lmt < (d.snd_to_biphase_cnt : Int) →
      decode_classify d i posinfo = biphase_decode2 (biphase_decode2 d i posinfo) i posinfo
      ∧ (biphase_decode2 d i posinfo).snd_to_biphase_cnt = d.snd_to_biphase_cnt
      ∧ (decode_classify d i posinfo).snd_to_biphase_cnt = d.snd_to_biphase_cnt
      ∧ (decode_classify d i posinfo).biphase_tic
          = (d.biphase_tic + 2) % LTC_FRAME_BIT_COUNT)
    ∧ ((d.snd_to_biphase_cnt : Int) ≤ d.snd_to_biphase_lmt →
      decode_classify d i posinfo
        = biphase_decode2 { d with snd_to_biphase_cnt := d.snd_to_biphase_cnt * 2 } i posinfo
      ∧ (decode_classify d i posinfo).snd_to_biphase_cnt = d.snd_to_biphase_cnt * 2
      ∧ (decode_classify d i posinfo).biphase_tic
          = (d.biphase_tic + 1) % LTC_FRAME_BIT_COUNT) := by
  constructor
  · intro h
    have hten : decode_classify d i posinfo
        = biphase_decode2 (biphase_decode2 d i posinfo) i posinfo := by
      unfold decode_classify
      rw [if_pos h]
    refine ⟨hten, biphase_decode2_cnt d i posinfo, ?_, ?_⟩
    · rw [hten, biphase_decode2_cnt, biphase_decode2_cnt]
    · rw [hten, biphase_decode2_tic, biphase_decode2_tic, Nat.mod_add_mod]
  · intro h
    have hten : decode_classify d i posinfo
        = biphase_decode2 { d with snd_to_biphase_cnt := d.snd_to_biphase_cnt * 2 } i posinfo := by
      unfold decode_classify
      rw [if_neg (not_lt.mpr h)]
    refine ⟨hten, ?_, ?_⟩
    · rw [hten, biphase_decode2_cnt]
    · rw [hten, biphase_decode2_tic]

/-- Claim C2.  After classification, when `cnt > period*4` and `cnt`
exceeds the fixed 16-sample silence threshold, the state change is
treated as silence: only `bit_cnt` is reset to 0, every other field —
`period` and `lmt` included — is untouched, and the decoder keeps
running.  Otherwise the period estimate becomes `(period*3 + cnt)/4` and
`lmt` is recomputed from the new period as `period*3/4` (truncated into
its `int` field), with `bit_cnt` untouched. -/
theorem claim2_silence_rejection (d : Decoder) :
    (d.snd_to_biphase_period * 4 < (d.snd_to_biphase_cnt : Rat) →
      16 < d.snd_to_biphase_cnt →
      decode_silence d = { d with bit_cnt := 0 })
    ∧ (¬(d.snd_to_biphase_period * 4 < (d.snd_to_biphase_cnt : Rat)
          ∧ 16 < d.snd_to_biphase_cnt) →
      decode_silence d
        = { d with
            snd_to_biphase_period :=
              (d.snd_to_biphase_period * 3 + (d.snd_to_biphase_cnt : Rat)) / 4,
            snd_to_biphase_lmt :=
              ratTrunc ((d.snd_to_biphase_period * 3 + (d.snd_to_biphase_cnt : Rat)) / 4 * 3 / 4) }
      ∧ (decode_silence d).bit_cnt = d.bit_cnt) := by
  constructor
  · intro h1 h2
    unfold decode_silence
    rw [if_pos ⟨h1, h2⟩]
  · intro h
    have heq : decode_silence d
        = { d with
            snd_to_biphase_period :=
              (d.snd_to_biphase_period * 3 + (d.snd_to_biphase_cnt : Rat)) / 4,
            snd_to_biphase_lmt :=
              ratTrunc ((d.snd_to_biphase_period * 3 + (d.snd_to_biphase_cnt : Rat)) / 4 * 3 / 4) } := by
      unfold decode_silence
      rw [if_neg h]
    exact ⟨heq, by rw [heq]⟩

/-- Claim C10.  `decode_ltc` only reads the sample array: the memory
component threaded through the whole loop is returned exactly as it was
passed in, whatever the decoder state, sample data, size and position
offset are. -/
theorem claim10_samples_unchanged (d : Decoder) (sound : List Nat) (posinfo : Int) :
    (decode_ltc d sound posinfo).2 = sound := by
  have haux : ∀ n i dm, (decode_loop posinfo i n dm).2 = dm.2 := by
    intro n
    induction n with
    | zero => intro i dm; rfl
    | succ k ih =>
      intro i dm
      rw [decode_loop, ih]
      rfl
  exact haux sound.length 0 (d, sound)

/-- Claim C7, amended.  A half-bit tick's sample-position estimate is
moved back by `period - cnt` exactly when `cnt ≤ 2*period` at the tick:
a tick fed from the short branch (`cnt` doubled from a value at most
`lmt`, with `lmt ≤ period`) always satisfies this, but a tick from the
long branch is also adjusted whenever its unmodified `cnt` is at most
`2*period`; only ticks with `cnt > 2*period` keep `pos` unchanged. -/
theorem claim7_pos_adjust (d : Decoder) (pos : Int) :
    (2 * d.snd_to_biphase_period < (d.snd_to_biphase_cnt : Rat) →
      biphase_pos d pos = pos)
    ∧ ((d.snd_to_biphase_cnt : Rat) ≤ 2 * d.snd_to_biphase_period →
      biphase_pos d pos
        = ratTrunc ((pos : Rat) - (d.snd_to_biphase_period - (d.snd_to_biphase_cnt : Rat))))
    ∧ ((d.snd_to_biphase_cnt : Int) ≤ d.snd_to_biphase_lmt →
      (d.snd_to_biphase_lmt : Rat) ≤ d.snd_to_biphase_period →
      biphase_pos { d with snd_to_biphase_cnt := d.snd_to_biphase_cnt * 2 } pos
        = ratTrunc ((pos : Rat)
            - (d.snd_to_biphase_period - ((d.snd_to_biphase_cnt * 2 : Nat) : Rat)))) := by
  refine ⟨?_, ?_, ?_⟩
  · intro h
    unfold biphase_pos
    rw [if_neg (not_le.mpr h)]
  · intro h
    unfold biphase_pos
    rw [if_pos h]
  · intro h1 h2
    have hc : (d.snd_to_biphase_cnt : Rat) ≤ (d.snd_to_biphase_lmt : Rat) := by
      exact_mod_cast Int.cast_le.mpr h1
    have hcond : ((d.snd_to_biphase_cnt * 2 : Nat) : Rat) ≤ 2 * d.snd_to_biphase_period := by
      push_cast
      linarith
    unfold biphase_pos
    rw [if_pos hcond]

/-- Claim C8.  The envelope ordering `min ≤ center ≤ max`: one envelope
step preserves it, processing any non-empty sample sequence from the
initial envelope establishes it, and a whole `decode_ltc` loop
iteration preserves it on the decoder state (no stage after the
envelope tracker writes the extremes). -/
theorem claim8_envelope_bound :
    (∀ mn mx s : Nat, mn ≤ 128 → 128 ≤ mx →
      (env_update mn mx s).1 ≤ 128 ∧ 128 ≤ (env_update mn mx s).2)
    ∧ (∀ (s : Nat) (l : List Nat),
      (env_run initEnv (s :: l)).1 ≤ 128 ∧ 128 ≤ (env_run initEnv (s :: l)).2)
    ∧ (∀ (d : Decoder) (s : Nat) (i posinfo : Int),
      d.snd_to_biphase_min ≤ 128 → 128 ≤ d.snd_to_biphase_max →
      (decode_sample d s i posinfo).snd_to_biphase_min ≤ 128
        ∧ 128 ≤ (decode_sample d s i posinfo).snd_to_biphase_max) := by
  refine ⟨env_update_inv, ?_, ?_⟩
  · intro s l
    have h1 : env_run initEnv (s :: l) = env_run (env_update 128 128 s) l := rfl
    have h2 := env_update_inv 128 128 s (le_refl 128) (le_refl 128)
    rw [h1]
    exact env_run_inv l (env_update 128 128 s) h2.1 h2.2
  · intro d s i posinfo h1 h2
    have henv := decode_sample_env d s i posinfo
    have hstep := env_update_inv d.snd_to_biphase_min d.snd_to_biphase_max s h1 h2
    rw [henv.1, henv.2]
    exact hstep

/-- An empty frame record used to build concrete decoder states. -/
def rec0 : FrameExt :=
  { ltc := List.replicate 10 0,
    off_start := 0,
    off_end := 0,
    reverse := 0,
    volume := VolumeDb.negInf,
    sample_min := 0,
    sample_max := 0,
    biphase_tics := List.replicate 80 0 }

/-- A concrete decoder state used as the base of the evaluation
witnesses: one queue slot, centered envelope, period of 8 samples. -/
def dBase : Decoder :=
  { queue := [rec0],
    queue_len := 1,
    queue_write_off := 0,
    biphase_state := 1,
    biphase_prev := false,
    snd_to_biphase_state := false,
    snd_to_biphase_cnt := 0,
    snd_to_biphase_lmt := 6,
    snd_to_biphase_period := 8,
    snd_to_biphase_min := 128,
    snd_to_biphase_max := 128,
    decoder_sync_word := 0,
    ltc_frame := List.replicate 10 0,
    bit_cnt := 0,
    frame_start_off := 0,
    frame_start_prev := -1,
    biphase_tics := List.replicate 80 0,
    biphase_tic := 0 }

/-- Claim C1, witness: a long interval (`cnt = 7 > lmt = 6`) at a
concrete state produces the two-call, cursor-plus-two behaviour with
`cnt` unmodified. -/
theorem claim1_tick_production_witness :
    (dBase.snd_to_biphase_lmt
        < (({ dBase with snd_to_biphase_cnt := 7 } : Decoder).snd_to_biphase_cnt : Int))
    ∧ (decode_classify { dBase with snd_to_biphase_cnt := 7 } 0 50
        = biphase_decode2 (biphase_decode2 { dBase with snd_to_biphase_cnt := 7 } 0 50) 0 50
      ∧ (biphase_decode2 { dBase with snd_to_biphase_cnt := 7 } 0 50).snd_to_biphase_cnt
          = ({ dBase with snd_to_biphase_cnt := 7 } : Decoder).snd_to_biphase_cnt
      ∧ (decode_classify { dBase with snd_to_biphase_cnt := 7 } 0 50).snd_to_biphase_cnt
          = ({ dBase with snd_to_biphase_cnt := 7 } : Decoder).snd_to_biphase_cnt
      ∧ (decode_classify { dBase with snd_to_biphase_cnt := 7 } 0 50).biphase_tic
          = (({ dBase with snd_to_biphase_cnt := 7 } : Decoder).biphase_tic + 2)
              % LTC_FRAME_BIT_COUNT) :=
  ⟨by decide,
   (claim1_tick_production { dBase with snd_to_biphase_cnt := 7 } 0 50).1 (by decide)⟩

/-- Claim C2, witness: a concrete silence hit (`cnt = 20`, `period = 4`,
so `cnt > period*4` and `cnt > 16`) only resets `bit_cnt`. -/
theorem claim2_silence_rejection_witness :
    (({ dBase with snd_to_biphase_cnt := 20, snd_to_biphase_period := 4 } : Decoder).snd_to_biphase_period * 4
        < (({ dBase with snd_to_biphase_cnt := 20, snd_to_biphase_period := 4 } : Decoder).snd_to_biphase_cnt : Rat))
    ∧ 16 < ({ dBase with snd_to_biphase_cnt := 20, snd_to_biphase_period := 4 } : Decoder).snd_to_biphase_cnt
    ∧ decode_silence { dBase with snd_to_biphase_cnt := 20, snd_to_biphase_period := 4 }
        = { ({ dBase with snd_to_biphase_cnt := 20, snd_to_biphase_period := 4 } : Decoder) with bit_cnt := 0 } :=
  ⟨by with_unfolding_all decide,
   by decide,
   (claim2_silence_rejection { dBase with snd_to_biphase_cnt := 20, snd_to_biphase_period := 4 }).1
     (by with_unfolding_all decide) (by decide)⟩

/-- Claim C7, counterexample to the original wording: at `cnt = 7`,
`lmt = 6`, `period = 8` the state change is classified long
(`cnt > lmt`), yet the tick's position estimate is adjusted (by
`period - cnt = 1`), so ticks of long classifications are not left
unadjusted. -/
theorem claim7_pos_adjust_counterexample :
    (({ dBase with snd_to_biphase_cnt := 7 } : Decoder).snd_to_biphase_lmt
        < (({ dBase with snd_to_biphase_cnt := 7 } : Decoder).snd_to_biphase_cnt : Int))
    ∧ biphase_pos { dBase with snd_to_biphase_cnt := 7 } 100 = 99
    ∧ biphase_pos { dBase with snd_to_biphase_cnt := 7 } 100 ≠ 100 := by
  refine ⟨by decide, ?_, ?_⟩
  · with_unfolding_all decide
  · with_unfolding_all decide

/-- Claim C7, witness for the amended statement: a concrete short tick
(`cnt = 3 ≤ lmt = 6`, `lmt ≤ period = 8`) is adjusted by
`period - 2*cnt`. -/
theorem claim7_pos_adjust_witness :
    ((({ dBase with snd_to_biphase_cnt := 3 } : Decoder).snd_to_biphase_cnt : Int)
        ≤ ({ dBase with snd_to_biphase_cnt := 3 } : Decoder).snd_to_biphase_lmt)
    ∧ ((({ dBase with snd_to_biphase_cnt := 3 } : Decoder).snd_to_biphase_lmt : Rat)
        ≤ ({ dBase with snd_to_biphase_cnt := 3 } : Decoder).snd_to_biphase_period)
    ∧ biphase_pos
        { ({ dBase with snd_to_biphase_cnt := 3 } : Decoder) with
          snd_to_biphase_cnt :=
            ({ dBase with snd_to_biphase_cnt := 3 } : Decoder).snd_to_biphase_cnt * 2 } 100
        = ratTrunc ((100 : Rat)
            - (({ dBase with snd_to_biphase_cnt := 3 } : Decoder).snd_to_biphase_period
              - ((({ dBase with snd_to_biphase_cnt := 3 } : Decoder).snd_to_biphase_cnt * 2 : Nat) : Rat))) :=
  ⟨by decide,
   by with_unfolding_all decide,
   (claim7_pos_adjust { dBase with snd_to_biphase_cnt := 3 } 100).2.2 (by decide)
     (by with_unfolding_all decide)⟩

/-- Claim C8, witness: the loop-iteration invariant applied at the
concrete base state and sample 200. -/
theorem claim8_envelope_bound_witness :
    dBase.snd_to_biphase_min ≤ 128
    ∧ 128 ≤ dBase.snd_to_biphase_max
    ∧ ((decode_sample dBase 200 0 0).snd_to_biphase_min ≤ 128
      ∧ 128 ≤ (decode_sample dBase 200 0 0).snd_to_biphase_max) :=
  ⟨by decide, by decide,
   claim8_envelope_bound.2.2 dBase 200 0 0 (by decide) (by decide)⟩

/-- Claim C4.  When `bit_cnt` has reached the frame bit count at the
start of `parse_ltc`, the overflow stage shifts the whole register by
exactly one bit position: bit `j` of the new register is bit `j+1` of
the old one (the oldest bit, number 0, is discarded and the freed top
bit is clear), which at byte level is each byte's upper seven bits moved
down with the low bit of the following byte carried into the high
position; `frame_start_off` advances by `ceil(period)` and `bit_cnt` is
decremented — all before the new bit is absorbed, as the final
decomposition conjunct records. -/
theorem claim4_overflow_shift (d : Decoder)
    (hof : LTC_FRAME_BIT_COUNT ≤ d.bit_cnt)
    (hlen : d.ltc_frame.length = 10)
    (hbytes : ∀ b ∈ d.ltc_frame, b < 256) :
    (parse_shift d).bit_cnt = d.bit_cnt - 1
    ∧ (parse_shift d).frame_start_off
        = d.frame_start_off + ⌈d.snd_to_biphase_period⌉
    ∧ (∀ j, frameBit (parse_shift d).ltc_frame j = frameBit d.ltc_frame (j + 1))
    ∧ frameBit (parse_shift d).ltc_frame 79 = false
    ∧ (∀ k, k + 1 < 10 →
        (parse_shift d).ltc_frame.getD k 0
          = d.ltc_frame.getD k 0 / 2 + 128 * (d.ltc_frame.getD (k + 1) 0 % 2))
    ∧ (∀ (bit : Bool) (offset posinfo : Int),
        parse_ltc d bit offset posinfo
          = parse_sync_rev
              (parse_sync_fwd
                (parse_absorb (parse_shift (parse_init d offset posinfo)) bit)
                offset posinfo)
              offset posinfo) := by
  have hps : parse_shift d
      = { d with
          ltc_frame := shift_bytes d.ltc_frame,
          frame_start_off := d.frame_start_off + ⌈d.snd_to_biphase_period⌉,
          bit_cnt := d.bit_cnt - 1 } := by
    unfold parse_shift
    rw [if_pos hof]
  have hbit : ∀ j, frameBit (parse_shift d).ltc_frame j = frameBit d.ltc_frame (j + 1) := by
    intro j
    rw [hps]
    show frameBit (shift_bytes d.ltc_frame) j = frameBit d.ltc_frame (j + 1)
    rw [← regVal_testBit _ j (shift_bytes_lt d.ltc_frame hbytes),
      regVal_shift _ hbytes, ← Nat.testBit_succ,
      regVal_testBit _ (j + 1) hbytes]
  refine ⟨by rw [hps], by rw [hps], hbit, ?_, ?_, fun bit offset posinfo => rfl⟩
  · rw [hbit 79]
    unfold frameBit
    have h1 : (79 + 1) / 8 = 10 := by norm_num
    have h2 : (79 + 1) % 8 = 0 := by norm_num
    rw [h1, h2, List.getD_eq_default _ _ (by omega), Nat.zero_testBit]
  · intro k hk
    rw [hps]
    show (shift_bytes d.ltc_frame).getD k 0 = _
    rw [shift_bytes_getD d.ltc_frame k,
      shift_byte_arith _ _ (getD_lt_256 d.ltc_frame hbytes k)]

/-- A concrete register state with `bit_cnt = 80`, used by the claim C4
witness. -/
def dC4 : Decoder :=
  { dBase with bit_cnt := 80, ltc_frame := [1, 2, 3, 4, 5, 6, 7, 8, 9, 255] }

/-- Claim C4, witness: the shift theorem applied to a concrete register
with `bit_cnt = 80`. -/
theorem claim4_overflow_shift_witness :
    LTC_FRAME_BIT_COUNT ≤ dC4.bit_cnt
    ∧ dC4.ltc_frame.length = 10
    ∧ (∀ b ∈ dC4.ltc_frame, b < 256)
    ∧ (∀ j, frameBit (parse_shift dC4).ltc_frame j = frameBit dC4.ltc_frame (j + 1)) :=
  ⟨by decide, by decide, by decide,
   (claim4_overflow_shift dC4 (by decide) (by decide) (by decide)).2.2.1⟩

/-- The forward-frame publication contract of claim C3, following the
spec's words: the frame record carries the in-progress register as its
payload, the per-tic period ring rotated into frame-relative order
(index 0 taken at the ring cursor, where the frame's stored history
begins), `off_start = frame_start_off`, `off_end = current position -
1`, `reverse = 0` and the volume/envelope snapshot; it is stored at the
(wrap-adjusted) write cursor, the cursor advances past it, and
`bit_cnt` is reset to 0. -/
def forward_publish_spec (m : Decoder) (offset posinfo : Int) (r : Decoder) : Prop :=
  let w := if m.queue_write_off = m.queue_len then 0 else m.queue_write_off
  let fr : FrameExt :=
    { ltc := m.ltc_frame,
      off_start := m.frame_start_off,
      off_end := posinfo + offset - 1,
      reverse := 0,
      volume := calc_volume_db m.snd_to_biphase_min m.snd_to_biphase_max,
      sample_min := m.snd_to_biphase_min,
      sample_max := m.snd_to_biphase_max,
      biphase_tics := List.ofFn (fun bc : Fin LTC_FRAME_BIT_COUNT =>
        m.biphase_tics.getD ((m.biphase_tic + (bc : Nat)) % LTC_FRAME_BIT_COUNT) 0) }
  r.queue = m.queue.set w fr
  ∧ r.queue[w]? = some fr
  ∧ r.queue_write_off = w + 1
  ∧ r.bit_cnt = 0

/-- Claim C3.  Whenever the state reached after absorbing a decoded bit
has the forward sync word and `bit_cnt` equal to the frame bit count,
the sync stage of `parse_ltc` (which, by the first conjunct, is exactly
what `parse_ltc` runs after `parse_mid`) publishes the forward frame
record described by `forward_publish_spec`. -/
theorem claim3_forward_frame (m : Decoder) (offset posinfo : Int)
    (hsync : m.decoder_sync_word = LTC_SYNC_WORD_FWD)
    (hcnt : m.bit_cnt = LTC_FRAME_BIT_COUNT)
    (hqlen : 0 < m.queue_len)
    (hqw : m.queue_write_off ≤ m.queue_len)
    (hq : m.queue.length = m.queue_len) :
    (∀ (d : Decoder) (bit : Bool),
      parse_ltc d bit offset posinfo
        = parse_sync_rev (parse_sync_fwd (parse_mid d bit offset posinfo) offset posinfo)
            offset posinfo)
    ∧ forward_publish_spec m offset posinfo
        (parse_sync_rev (parse_sync_fwd m offset posinfo) offset posinfo) := by
  refine ⟨fun d bit => rfl, ?_⟩
  have hfwd : parse_sync_fwd m offset posinfo
      = { pushQueue m (fwdFrameRec m offset posinfo) with bit_cnt := 0 } := by
    unfold parse_sync_fwd
    rw [if_pos hsync, if_pos hcnt]
  have hs2 : ({ pushQueue m (fwdFrameRec m offset posinfo) with bit_cnt := 0 } : Decoder).decoder_sync_word
      = LTC_SYNC_WORD_FWD := by
    show (pushQueue m (fwdFrameRec m offset posinfo)).decoder_sync_word = LTC_SYNC_WORD_FWD
    rw [pushQueue_sync, hsync]
  have hrev : parse_sync_rev { pushQueue m (fwdFrameRec m offset posinfo) with bit_cnt := 0 }
      offset posinfo
      = { pushQueue m (fwdFrameRec m offset posinfo) with bit_cnt := 0 } := by
    unfold parse_sync_rev
    rw [if_neg (by intro heq; rw [hs2] at heq; exact absurd heq (by decide))]
  rw [hfwd, hrev]
  have hwlt : (if m.queue_write_off = m.queue_len then 0 else m.queue_write_off)
      < m.queue.length := by
    rw [hq]
    split
    · exact hqlen
    · omega
  exact ⟨rfl, List.getElem?_set_self hwlt, rfl, rfl⟩

/-- A concrete state holding the forward sync word with a full bit
count, used by the claim C3 witness. -/
def mC3 : Decoder := { dBase with decoder_sync_word := 16381, bit_cnt := 80 }

/-- Claim C3, witness: the forward publication at a concrete state. -/
theorem claim3_forward_frame_witness :
    mC3.decoder_sync_word = LTC_SYNC_WORD_FWD
    ∧ mC3.bit_cnt = LTC_FRAME_BIT_COUNT
    ∧ 0 < mC3.queue_len
    ∧ mC3.queue_write_off ≤ mC3.queue_len
    ∧ mC3.queue.length = mC3.queue_len
    ∧ forward_publish_spec mC3 5 1000
        (parse_sync_rev (parse_sync_fwd mC3 5 1000) 5 1000) :=
  ⟨by decide, by decide, by decide, by decide, by decide,
   (claim3_forward_frame mC3 5 1000
     (by decide) (by decide) (by decide) (by decide) (by decide)).2⟩

set_option maxRecDepth 8000 in
/-- `bitrev8` reverses the bit order of a byte. -/
theorem bitrev8_testBit : ∀ b < 256, ∀ j < 8, (bitrev8 b).testBit j = b.testBit (7 - j) := by
  decide

/-- `swap_bytes` on a 10-byte register reverses the order of the first
8 bytes and keeps the two sync-word bytes in place. -/
theorem swap_bytes_getD (f : List Nat) (h : f.length = 10) :
    (∀ k < 8, (swap_bytes f).getD k 0 = f.getD (7 - k) 0)
    ∧ (swap_bytes f).getD 8 0 = f.getD 8 0
    ∧ (swap_bytes f).getD 9 0 = f.getD 9 0 := by
  rcases f with _ | ⟨a0, f⟩
  · simp at h
  rcases f with _ | ⟨a1, f⟩
  · simp at h
  rcases f with _ | ⟨a2, f⟩
  · simp at h
  rcases f with _ | ⟨a3, f⟩
  · simp at h
  rcases f with _ | ⟨a4, f⟩
  · simp at h
  rcases f with _ | ⟨a5, f⟩
  · simp at h
  rcases f with _ | ⟨a6, f⟩
  · simp at h
  rcases f with _ | ⟨a7, f⟩
  · simp at h
  rcases f with _ | ⟨a8, f⟩
  · simp at h
  rcases f with _ | ⟨a9, f⟩
  · simp at h
  have hf : f = [] := by
    rw [List.length_cons, List.length_cons, List.length_cons, List.length_cons,
      List.length_cons, List.length_cons, List.length_cons, List.length_cons,
      List.length_cons, List.length_cons] at h
    exact List.length_eq_zero.mp (by omega)
  subst hf
  refine ⟨?_, rfl, rfl⟩
  intro k hk
  interval_cases k <;> rfl

/-- The reverse-frame publication contract of claim C5, following the
spec's words: the payload is the register with the bit order reversed
inside every byte and the byte order of the 8 non-sync bytes reversed,
the offsets are pulled back by 16 bit periods, `reverse` holds the
sample duration of one payload's worth of bit periods, the snapshot is
attached, the record is stored at the wrap-adjusted cursor and
`bit_cnt` is reset. -/
def reverse_publish_spec (m : Decoder) (offset posinfo : Int) (r : Decoder) : Prop :=
  let w := if m.queue_write_off = m.queue_len then 0 else m.queue_write_off
  let f2 := swap_bytes (m.ltc_frame.map bitrev8)
  let fr : FrameExt :=
    { ltc := f2,
      off_start := ratTrunc ((m.frame_start_off : Rat) - 16 * m.snd_to_biphase_period),
      off_end := ratTrunc (((posinfo + offset - 1 : Int) : Rat) - 16 * m.snd_to_biphase_period),
      reverse := ratTrunc (((LTC_FRAME_BIT_COUNT / 8 * 8 : Nat) : Rat) * m.snd_to_biphase_period),
      volume := calc_volume_db m.snd_to_biphase_min m.snd_to_biphase_max,
      sample_min := m.snd_to_biphase_min,
      sample_max := m.snd_to_biphase_max,
      biphase_tics := List.ofFn (fun bc : Fin LTC_FRAME_BIT_COUNT =>
        m.biphase_tics.getD ((m.biphase_tic + (bc : Nat)) % LTC_FRAME_BIT_COUNT) 0) }
  r.queue = m.queue.set w fr
  ∧ r.queue[w]? = some fr
  ∧ r.queue_write_off = w + 1
  ∧ r.bit_cnt = 0

/-- Claim C5.  Whenever the state after absorbing a decoded bit holds
the reverse sync word with a full bit count, the sync stage publishes
the reverse frame record of `reverse_publish_spec`; its `reverse` field
is non-zero (given at least one sample per half-bit period), and the
payload transformation is bit reversal inside each byte followed by the
byte-order reversal of the non-sync bytes. -/
theorem claim5_reverse_frame (m : Decoder) (offset posinfo : Int)
    (hsync : m.decoder_sync_word = LTC_SYNC_WORD_REV)
    (hcnt : m.bit_cnt = LTC_FRAME_BIT_COUNT)
    (hqlen : 0 < m.queue_len)
    (hqw : m.queue_write_off ≤ m.queue_len)
    (hq : m.queue.length = m.queue_len)
    (hp : 1 ≤ m.snd_to_biphase_period) :
    reverse_publish_spec m offset posinfo
        (parse_sync_rev (parse_sync_fwd m offset posinfo) offset posinfo)
    ∧ (revFrameRec m offset posinfo (swap_bytes (m.ltc_frame.map bitrev8))).reverse ≠ 0
    ∧ (∀ b < 256, ∀ j < 8, (bitrev8 b).testBit j = b.testBit (7 - j))
    ∧ (∀ f : List Nat, f.length = 10 →
        (∀ k < 8, (swap_bytes f).getD k 0 = f.getD (7 - k) 0)
        ∧ (swap_bytes f).getD 8 0 = f.getD 8 0
        ∧ (swap_bytes f).getD 9 0 = f.getD 9 0) := by
  have hfwd : parse_sync_fwd m offset posinfo = m := by
    unfold parse_sync_fwd
    rw [if_neg (by intro heq; rw [hsync] at heq; exact absurd heq (by decide))]
  have hrev : parse_sync_rev m offset posinfo
      = { pushQueue { m with ltc_frame := swap_bytes (m.ltc_frame.map bitrev8) }
            (revFrameRec m offset posinfo (swap_bytes (m.ltc_frame.map bitrev8)))
          with bit_cnt := 0 } := by
    unfold parse_sync_rev
    rw [if_pos hsync, if_pos hcnt]
  have hwlt : (if m.queue_write_off = m.queue_len then 0 else m.queue_write_off)
      < m.queue.length := by
    rw [hq]
    split
    · exact hqlen
    · omega
  refine ⟨?_, ?_, bitrev8_testBit, swap_bytes_getD⟩
  · rw [hfwd, hrev]
    exact ⟨rfl, List.getElem?_set_self hwlt, rfl, rfl⟩
  · show ratTrunc (((LTC_FRAME_BIT_COUNT / 8 * 8 : Nat) : Rat) * m.snd_to_biphase_period) ≠ 0
    have hcast : ((LTC_FRAME_BIT_COUNT / 8 * 8 : Nat) : Rat) = 80 := by
      norm_num [LTC_FRAME_BIT_COUNT]
    have h80 : (1 : Rat) ≤ ((LTC_FRAME_BIT_COUNT / 8 * 8 : Nat) : Rat)
        * m.snd_to_biphase_period := by
      rw [hcast]
      calc (1 : Rat) ≤ 80 := by norm_num
        _ ≤ 80 * m.snd_to_biphase_period := le_mul_of_one_le_right (by norm_num) hp
    have := one_le_ratTrunc h80
    omega

/-- A concrete state holding the reverse sync word with a full bit
count, used by the claim C5 witness. -/
def mC5 : Decoder := { dBase with decoder_sync_word := 49148, bit_cnt := 80 }

/-- Claim C5, witness: the reverse publication at a concrete state. -/
theorem claim5_reverse_frame_witness :
    mC5.decoder_sync_word = LTC_SYNC_WORD_REV
    ∧ mC5.bit_cnt = LTC_FRAME_BIT_COUNT
    ∧ 0 < mC5.queue_len
    ∧ mC5.queue_write_off ≤ mC5.queue_len
    ∧ mC5.queue.length = mC5.queue_len
    ∧ 1 ≤ mC5.snd_to_biphase_period
    ∧ reverse_publish_spec mC5 5 1000
        (parse_sync_rev (parse_sync_fwd mC5 5 1000) 5 1000) :=
  ⟨by decide, by decide, by decide, by decide, by decide,
   by with_unfolding_all decide,
   (claim5_reverse_frame mC5 5 1000
     (by decide) (by decide) (by decide) (by decide) (by decide)
     (by with_unfolding_all decide)).1⟩

/-- Claim C6, amended.  The sync-word comparison of `parse_ltc` gates
frame completion on `bit_cnt = LTC_FRAME_BIT_COUNT`, but it resets
`bit_cnt` to 0 on every sync match regardless of `bit_cnt`: with no
match the sync stage is the identity, with a match and a partial bit
count only `bit_cnt` is cleared (nothing is published), and with a
match at a full bit count the corresponding frame is published before
the reset. -/
theorem claim6_sync_gate (m : Decoder) (offset posinfo : Int) :
    (m.decoder_sync_word ≠ LTC_SYNC_WORD_FWD → m.decoder_sync_word ≠ LTC_SYNC_WORD_REV →
      parse_sync_rev (parse_sync_fwd m offset posinfo) offset posinfo = m)
    ∧ ((m.decoder_sync_word = LTC_SYNC_WORD_FWD ∨ m.decoder_sync_word = LTC_SYNC_WORD_REV) →
      m.bit_cnt ≠ LTC_FRAME_BIT_COUNT →
      parse_sync_rev (parse_sync_fwd m offset posinfo) offset posinfo
        = { m with bit_cnt := 0 })
    ∧ (m.decoder_sync_word = LTC_SYNC_WORD_FWD → m.bit_cnt = LTC_FRAME_BIT_COUNT →
      parse_sync_rev (parse_sync_fwd m offset posinfo) offset posinfo
        = { pushQueue m (fwdFrameRec m offset posinfo) with bit_cnt := 0 })
    ∧ (m.decoder_sync_word = LTC_SYNC_WORD_REV → m.bit_cnt = LTC_FRAME_BIT_COUNT →
      parse_sync_rev (parse_sync_fwd m offset posinfo) offset posinfo
        = { pushQueue { m with ltc_frame := swap_bytes (m.ltc_frame.map bitrev8) }
              (revFrameRec m offset posinfo (swap_bytes (m.ltc_frame.map bitrev8)))
            with bit_cnt := 0 }) := by
  refine ⟨?_, ?_, ?_, ?_⟩
  · intro hf hr
    have h1 : parse_sync_fwd m offset posinfo = m := by
      unfold parse_sync_fwd
      rw [if_neg hf]
    rw [h1]
    unfold parse_sync_rev
    rw [if_neg hr]
  · rintro (hs | hs) hbc
    · have h1 : parse_sync_fwd m offset posinfo = { m with bit_cnt := 0 } := by
        unfold parse_sync_fwd
        rw [if_pos hs, if_neg hbc]
      have hs2 : ({ m with bit_cnt := 0 } : Decoder).decoder_sync_word
          = LTC_SYNC_WORD_FWD := hs
      have hne : ¬(({ m with bit_cnt := 0 } : Decoder).decoder_sync_word
          = LTC_SYNC_WORD_REV) := by
        rw [hs2]
        decide
      rw [h1]
      unfold parse_sync_rev
      rw [if_neg hne]
    · have hnf : ¬(m.decoder_sync_word = LTC_SYNC_WORD_FWD) := by
        rw [hs]
        decide
      have h1 : parse_sync_fwd m offset posinfo = m := by
        unfold parse_sync_fwd
        rw [if_neg hnf]
      rw [h1]
      unfold parse_sync_rev
      rw [if_pos hs, if_neg hbc]
  · intro hs hbc
    have h1 : parse_sync_fwd m offset posinfo
        = { pushQueue m (fwdFrameRec m offset posinfo) with bit_cnt := 0 } := by
      unfold parse_sync_fwd
      rw [if_pos hs, if_pos hbc]
    have hs2 : ({ pushQueue m (fwdFrameRec m offset posinfo) with
        bit_cnt := 0 } : Decoder).decoder_sync_word = LTC_SYNC_WORD_FWD := by
      show (pushQueue m (fwdFrameRec m offset posinfo)).decoder_sync_word
          = LTC_SYNC_WORD_FWD
      rw [pushQueue_sync, hs]
    have hne : ¬(({ pushQueue m (fwdFrameRec m offset posinfo) with
        bit_cnt := 0 } : Decoder).decoder_sync_word = LTC_SYNC_WORD_REV) := by
      rw [hs2]
      decide
    rw [h1]
    unfold parse_sync_rev
    rw [if_neg hne]
  · intro hs hbc
    have hnf : ¬(m.decoder_sync_word = LTC_SYNC_WORD_FWD) := by
      rw [hs]
      decide
    have h1 : parse_sync_fwd m offset posinfo = m := by
      unfold parse_sync_fwd
      rw [if_neg hnf]
    rw [h1]
    unfold parse_sync_rev
    rw [if_pos hs, if_pos hbc]

/-- A concrete decoder whose sync register is one shift short of the
forward sync word while only 4 payload bits are assembled, used against
claim C6. -/
def dC6 : Decoder := { dBase with bit_cnt := 4, decoder_sync_word := 8190 }

/-- Claim C6, counterexample to the original wording: absorbing a 1 bit
at `dC6` completes the sync word (`8190*2 + 1 = 0x3ffd`) while
`bit_cnt` is only 5, far from the frame bit count — and `parse_ltc`
still resets `bit_cnt` to 0 (though it publishes nothing), contradicting
the claim that a match with `bit_cnt` different from the frame bit
count causes neither completion nor a reset. -/
theorem claim6_sync_gate_counterexample :
    (parse_mid dC6 true 0 100).decoder_sync_word = LTC_SYNC_WORD_FWD
    ∧ (parse_mid dC6 true 0 100).bit_cnt = 5
    ∧ (parse_mid dC6 true 0 100).bit_cnt ≠ LTC_FRAME_BIT_COUNT
    ∧ (parse_ltc dC6 true 0 100).queue = dC6.queue
    ∧ (parse_ltc dC6 true 0 100).queue_write_off = dC6.queue_write_off
    ∧ (parse_ltc dC6 true 0 100).bit_cnt = 0
    ∧ (parse_ltc dC6 true 0 100).bit_cnt ≠ (parse_mid dC6 true 0 100).bit_cnt := by
  refine ⟨?_, ?_, ?_, ?_, ?_, ?_, ?_⟩ <;> with_unfolding_all decide

/-- Claim C6, witness for the amended statement: at the same concrete
mid-state the sync stage only clears `bit_cnt`. -/
theorem claim6_sync_gate_witness :
    ((parse_mid dC6 true 0 100).decoder_sync_word = LTC_SYNC_WORD_FWD
      ∨ (parse_mid dC6 true 0 100).decoder_sync_word = LTC_SYNC_WORD_REV)
    ∧ (parse_mid dC6 true 0 100).bit_cnt ≠ LTC_FRAME_BIT_COUNT
    ∧ parse_sync_rev (parse_sync_fwd (parse_mid dC6 true 0 100) 0 100) 0 100
        = { parse_mid dC6 true 0 100 with bit_cnt := 0 } :=
  ⟨Or.inl (by with_unfolding_all decide),
   by with_unfolding_all decide,
   (claim6_sync_gate (parse_mid dC6 true 0 100) 0 100).2.1
     (Or.inl (by with_unfolding_all decide)) (by with_unfolding_all decide)⟩

/-- Claim C9, amended.  Pushing a frame always succeeds: under the
construction invariants (positive capacity, cursor at most capacity,
queue array of exactly `capacity` slots) every write lands at an index
in `[0, capacity)`, the pushed record is retrievable there, the array
keeps its size, and the cursor stays in `[0, capacity]` — it equals
`capacity` right after the last slot is filled, and a push finding the
cursor at `capacity` wraps it to slot 0, overwriting that slot. -/
theorem claim9_queue_push (d : Decoder) (fr : FrameExt)
    (hqlen : 0 < d.queue_len)
    (hqw : d.queue_write_off ≤ d.queue_len)
    (hq : d.queue.length = d.queue_len) :
    ((if d.queue_write_off = d.queue_len then 0 else d.queue_write_off) < d.queue_len)
    ∧ (pushQueue d fr).queue
        = d.queue.set (if d.queue_write_off = d.queue_len then 0 else d.queue_write_off) fr
    ∧ (pushQueue d fr).queue[(if d.queue_write_off = d.queue_len then 0 else d.queue_write_off)]?
        = some fr
    ∧ (pushQueue d fr).queue.length = d.queue.length
    ∧ (pushQueue d fr).queue_write_off ≤ d.queue_len
    ∧ 0 < (pushQueue d fr).queue_write_off
    ∧ (d.queue_write_off = d.queue_len →
        (pushQueue d fr).queue = d.queue.set 0 fr
        ∧ (pushQueue d fr).queue_write_off = 1) := by
  have hwlt : (if d.queue_write_off = d.queue_len then 0 else d.queue_write_off)
      < d.queue_len := by
    split
    · exact hqlen
    · omega
  have hwoff : (pushQueue d fr).queue_write_off
      = (if d.queue_write_off = d.queue_len then 0 else d.queue_write_off) + 1 := rfl
  refine ⟨hwlt, rfl, List.getElem?_set_self (by rw [hq]; exact hwlt), by
    show (d.queue.set _ fr).length = d.queue.length
    rw [List.length_set], ?_, ?_, ?_⟩
  · rw [hwoff]
    omega
  · rw [hwoff]
    omega
  · intro hwrap
    constructor
    · show d.queue.set (if d.queue_write_off = d.queue_len then 0 else d.queue_write_off) fr
        = d.queue.set 0 fr
      rw [if_pos hwrap]
    · rw [hwoff, if_pos hwrap]

/-- Claim C9, counterexample to the original wording: `dBase` has a
one-slot queue with the cursor at 0; after one push the cursor equals
the capacity, so it is not in `[0, capacity)` — the wrap to 0 only
happens at the start of the next push. -/
theorem claim9_queue_push_counterexample :
    (pushQueue dBase rec0).queue_write_off = dBase.queue_len
    ∧ ¬((pushQueue dBase rec0).queue_write_off < dBase.queue_len) := by
  refine ⟨?_, ?_⟩ <;> decide

/-- Claim C9, witness for the amended statement: a push into the
concrete one-slot queue. -/
theorem claim9_queue_push_witness :
    0 < dBase.queue_len
    ∧ dBase.queue_write_off ≤ dBase.queue_len
    ∧ dBase.queue.length = dBase.queue_len
    ∧ ((if dBase.queue_write_off = dBase.queue_len then 0 else dBase.queue_write_off)
        < dBase.queue_len
      ∧ (pushQueue dBase rec0).queue
          = dBase.queue.set
              (if dBase.queue_write_off = dBase.queue_len then 0 else dBase.queue_write_off) rec0
      ∧ (pushQueue dBase rec0).queue[(if dBase.queue_write_off = dBase.queue_len then 0
            else dBase.queue_write_off)]?
          = some rec0
      ∧ (pushQueue dBase rec0).queue.length = dBase.queue.length
      ∧ (pushQueue dBase rec0).queue_write_off ≤ dBase.queue_len
      ∧ 0 < (pushQueue dBase rec0).queue_write_off
      ∧ (dBase.queue_write_off = dBase.queue_len →
          (pushQueue dBase rec0).queue = dBase.queue.set 0 rec0
          ∧ (pushQueue dBase rec0).queue_write_off = 1)) :=
  ⟨by decide, by decide, by decide,
   claim9_queue_push dBase rec0 (by decide) (by decide) (by decide)⟩
